import Mathlib

set_option maxHeartbeats 1000000

/-! Shallow embedding of the DNS-resolving transport wrapper of
`src/transports/dns/src/lib.rs`: the data model, the `resolve` function for
single protocol components, the TXT record parser `parse_dnsaddr_txt`, the
resolve-and-dial loop `do_dial`, and the error model with `Error::source`.

The external collaborators (the DNS resolver, the inner transport, and the
pre-existing multiaddress / UTF-8 parsing libraries) are modelled as oracle
functions, exactly at the interfaces the source consumes them through. -/

/-- One component of a multiaddress. IP literals, ports and peer ids are
abstracted to numeric or string payloads; the four name-bearing DNS
components correspond to `Protocol::Dns`, `Dns4`, `Dns6` and `Dnsaddr`
of the source. -/
inductive Protocol : Type where
  | dns : String → Protocol
  | dns4 : String → Protocol
  | dns6 : String → Protocol
  | dnsaddr : String → Protocol
  | ip4 : Nat → Protocol
  | ip6 : Nat → Protocol
  | tcp : Nat → Protocol
  | p2p : String → Protocol
  | other : Nat → Protocol
deriving DecidableEq, Repr

/-- A multiaddress is the ordered list of its protocol components. -/
abbrev Multiaddr := List Protocol

/-- An `std::net::IpAddr`: a v4 or v6 address, payload abstracted. -/
inductive IpAddr : Type where
  | v4 : Nat → IpAddr
  | v6 : Nat → IpAddr
deriving DecidableEq, Repr

/-- `Protocol::from(IpAddr)`: the `/ip4` or `/ip6` literal component. -/
def Protocol.fromIp : IpAddr → Protocol
  | .v4 a => .ip4 a
  | .v6 a => .ip6 a

/-- The `matches!` filter of `do_dial`: the four name-bearing components. -/
def nameBearing : Protocol → Bool
  | .dns _ | .dns4 _ | .dns6 _ | .dnsaddr _ => true
  | _ => false

/-- A `hickory_resolver::ResolveError`, abstracted to its displayed message. -/
abbrev ResolveErr := String

/-- The error type `Error<TErr>` of the wrapper transport. -/
inductive Error (E : Type) : Type where
  | transport : E → Error E
  | resolveError : ResolveErr → Error E
  | multiaddrNotSupported : Multiaddr → Error E
  | tooManyLookups : Error E
  | dial : List (Error E) → Error E

/-- A `dyn Error` trait object as returned by `Error::source`: either the
inner transport's error, a resolver error, or a wrapper error itself. -/
inductive DynErr (E : Type) : Type where
  | inner : E → DynErr E
  | resolver : ResolveErr → DynErr E
  | wrapped : Error E → DynErr E

mutual

/-- `Error::source`: `Transport` and `ResolveError` expose the underlying
error, `MultiaddrNotSupported` and `TooManyLookups` have no source, and
`Dial` delegates to the source of the last sub-error
(`errs.last().and_then(|e| e.source())`). -/
def Error.source {E : Type} : Error E → Option (DynErr E)
  | .transport e => some (.inner e)
  | .resolveError e => some (.resolver e)
  | .multiaddrNotSupported _ => none
  | .tooManyLookups => none
  | .dial errs => lastSource errs

/-- `errs.last().and_then(|e| e.source())` on a list of sub-errors. -/
def lastSource {E : Type} : List (Error E) → Option (DynErr E)
  | [] => none
  | [e] => Error.source e
  | _ :: e :: es => lastSource (e :: es)

end

/-- The four lookup operations of the `Resolver` trait, as oracles. Each
returns a resolver error or the list of records, in resolver order; TXT
records expose their ordered list of character-string byte blobs. The
resolver contract promises that a successful lookup is never empty, but the
model does not build that in. -/
structure Resolver : Type where
  lookup_ip : String → Except ResolveErr (List IpAddr)
  ipv4_lookup : String → Except ResolveErr (List Nat)
  ipv6_lookup : String → Except ResolveErr (List Nat)
  txt_lookup : String → Except ResolveErr (List (List (List Nat)))

/-- The error produced by the `invalid_data` helper:
`io::Error::new(io::ErrorKind::InvalidData, msg)`. -/
inductive IoErr : Type where
  | invalidData : String → IoErr
deriving DecidableEq, Repr

/-- Oracles for the two pre-existing external functions that
`parse_dnsaddr_txt` delegates to: `str::from_utf8` and
`Multiaddr::try_from` (multiaddress text parsing lives outside this crate).
Errors carry the displayed message. -/
structure Env : Type where
  utf8Decode : List Nat → Except String String
  parseMultiaddr : String → Except String Multiaddr

/-- `parse_dnsaddr_txt`: parses one character-string of a dnsaddr TXT
record into a multiaddress, mapping every failure to `InvalidData`. -/
def parse_dnsaddr_txt (env : Env) (txt : List Nat) : Except IoErr Multiaddr :=
  match env.utf8Decode txt with
  | .error e => .error (.invalidData e)
  | .ok s =>
    match s.startsWith "dnsaddr=" with
    | false => .error (.invalidData "Missing `dnsaddr=` prefix.")
    | true =>
      match env.parseMultiaddr (s.drop "dnsaddr=".length) with
      | .error e => .error (.invalidData e)
      | .ok a => .ok a

/-- The constant `DNSADDR_PREFIX` of the source, prepended to the name for
TXT record lookups. -/
def dnsaddrLabel : String := "_dnsaddr."

/-- `Resolved`: the successful outcome of resolving one protocol component. -/
inductive Resolved : Type where
  | one : Protocol → Resolved
  | many : List Protocol → Resolved
  | addrs : List Multiaddr → Resolved

/-- The result of `resolve`, with the failure branch of the `.expect` calls
on the first record made explicit as `panicked`. -/
inductive ResolveOutcome (E : Type) : Type where
  | ok : Resolved → ResolveOutcome E
  | err : Error E → ResolveOutcome E
  | panicked : ResolveOutcome E

/-- The TXT-record post-processing of the `Dnsaddr` arm of `resolve`: for
each record take only the first character-string blob; records with no blob
and records that fail to parse are skipped. -/
def collectTxt (env : Env) : List (List (List Nat)) → List Multiaddr
  | [] => []
  | txt :: rest =>
    match txt.head? with
    | none => collectTxt env rest
    | some blob =>
      match parse_dnsaddr_txt env blob with
      | .error _ => collectTxt env rest
      | .ok a => a :: collectTxt env rest

/-- `resolve`: resolves the domain name of one `Dns`, `Dns4`, `Dns6` or
`Dnsaddr` component; a component of any other type is returned unchanged as
a `Resolved::One`. -/
def resolve (E : Type) (env : Env) (R : Resolver) : Protocol → ResolveOutcome E
  | .dns name =>
    match R.lookup_ip name with
    | .error e => .err (.resolveError e)
    | .ok ips =>
      match ips with
      | [] => .panicked
      | [one] => .ok (.one (Protocol.fromIp one))
      | one :: two :: rest => .ok (.many ((one :: two :: rest).map Protocol.fromIp))
  | .dns4 name =>
    match R.ipv4_lookup name with
    | .error e => .err (.resolveError e)
    | .ok ips =>
      match ips with
      | [] => .panicked
      | [one] => .ok (.one (.ip4 one))
      | one :: two :: rest => .ok (.many ((one :: two :: rest).map Protocol.ip4))
  | .dns6 name =>
    match R.ipv6_lookup name with
    | .error e => .err (.resolveError e)
    | .ok ips =>
      match ips with
      | [] => .panicked
      | [one] => .ok (.one (.ip6 one))
      | one :: two :: rest => .ok (.many ((one :: two :: rest).map Protocol.ip6))
  | .dnsaddr name =>
    match R.txt_lookup (dnsaddrLabel ++ name) with
    | .error e => .err (.resolveError e)
    | .ok txts => .ok (.addrs (collectTxt env txts))
  | proto => .ok (.one proto)

/-- The result of one call to the inner transport's `dial`: either a dial
future was produced (whose await yields `Except E O`), or one of the two
synchronous rejections of `TransportError`. Dial options are absorbed into
the oracle, since they are passed through unchanged. -/
inductive InnerDialOutcome (E O : Type) : Type where
  | accepted : Except E O → InnerDialOutcome E O
  | notSupported : Multiaddr → InnerDialOutcome E O
  | otherError : E → InnerDialOutcome E O

/-- The overall outcome of one wrapper dial. `panic` models the `.expect`
failure inside `resolve`, reachable only when the resolver breaks its
no-empty-success contract. -/
inductive DialOutcome (E O : Type) : Type where
  | success : O → DialOutcome E O
  | failure : Error E → DialOutcome E O
  | panic : DialOutcome E O

/-- Ghost trace of the observable actions of the dial loop: a resolver
lookup for one component, an invocation of the inner transport's dial (the
flag tells whether inner accepted it, i.e. produced a dial future), and the
recording of one error in `dial_errors`. -/
inductive Event (E : Type) : Type where
  | resolveCall : Protocol → Event E
  | innerDial : Multiaddr → Bool → Event E
  | recorded : Error E → Event E

/-- `MAX_DIAL_ATTEMPTS` of the source. -/
def MAX_DIAL_ATTEMPTS : Nat := 16

/-- `MAX_DNS_LOOKUPS` of the source. -/
def MAX_DNS_LOOKUPS : Nat := 32

/-- `MAX_TXT_RECORDS` of the source. -/
def MAX_TXT_RECORDS : Nat := 16

/-- Prepends the events of the current step to a loop result. -/
def consE {E O : Type} (evs : List (Event E)) (r : DialOutcome E O × List (Event E)) :
    DialOutcome E O × List (Event E) :=
  (r.1, evs ++ r.2)

/-- The error aggregated after the loop: `Dial(dial_errors)` when any error
was recorded, otherwise the synthetic
`ResolveError("No Matching Records Found")`. -/
def mkAgg {E : Type} (errs : List (Error E)) : Error E :=
  match errs with
  | [] => .resolveError "No Matching Records Found"
  | _ :: _ => .dial errs

/-- The failure returned after the loop terminates without a success. -/
def finalError {E O : Type} (errs : List (Error E)) : DialOutcome E O :=
  .failure (mkAgg errs)

/-- The search `addr.iter().enumerate().find(...)` for the first
name-bearing component together with its index. -/
def findName (a : Multiaddr) : Option (Nat × Protocol) :=
  a.enum.find? fun ip => nameBearing ip.2

/-- Whether an address still has a name-bearing component. -/
def hasNameComponent (a : Multiaddr) : Bool :=
  a.any nameBearing

/-- The `Resolved::Addrs` push computation of `do_dial`: scans the returned
multiaddresses in order, keeps those that end with `suffix`, capping the
number accepted at `MAX_TXT_RECORDS` (the counter `n` of the source), and
emits each as `prefix ++ b` (the accumulated prefix components followed by
the whole returned address). The result is in push order. -/
def expandAddrs (pfx suffix : Multiaddr) : Nat → List Multiaddr → List Multiaddr
  | _, [] => []
  | n, a :: rest =>
    if suffix.isSuffixOf a then
      if n < MAX_TXT_RECORDS then (pfx ++ a) :: expandAddrs pfx suffix (n + 1) rest
      else expandAddrs pfx suffix n rest
    else expandAddrs pfx suffix n rest

/-- The resolve-and-dial loop of `do_dial`. The state is the recorded
`dial_errors` (in recording order), the two counters `dns_lookups` and
`dial_attempts`, and the LIFO work list `unresolved` with its top at the
head. Besides the outcome, the ghost trace of events is returned in
chronological order.

The source guards the lookup cap with `dns_lookups == MAX_DNS_LOOKUPS`; it
is written here as `MAX_DNS_LOOKUPS ≤ dns_lookups`, which agrees with the
source on every reachable state because `dns_lookups` starts at 0 and is
only incremented below this guard, so it never exceeds the cap. -/
def dialLoop {E O : Type} (env : Env) (R : Resolver)
    (inner : Multiaddr → InnerDialOutcome E O) :
    List (Error E) → Nat → Nat → List Multiaddr →
    DialOutcome E O × List (Event E)
  | dial_errors, _, _, [] => (finalError dial_errors, [])
  | dial_errors, dns_lookups, dial_attempts, addr :: rest =>
    match findName addr with
    | some (i, name) =>
      if h : MAX_DNS_LOOKUPS ≤ dns_lookups then
        consE [.recorded .tooManyLookups]
          (dialLoop env R inner (dial_errors ++ [.tooManyLookups])
            dns_lookups dial_attempts rest)
      else
        match resolve E env R name with
        | .panicked => (.panic, [.resolveCall name])
        | .err e =>
          consE [.resolveCall name, .recorded e]
            (dialLoop env R inner (dial_errors ++ [e])
              (dns_lookups + 1) dial_attempts rest)
        | .ok (.one p) =>
          consE [.resolveCall name]
            (dialLoop env R inner dial_errors
              (dns_lookups + 1) dial_attempts (addr.set i p :: rest))
        | .ok (.many ps) =>
          consE [.resolveCall name]
            (dialLoop env R inner dial_errors
              (dns_lookups + 1) dial_attempts
              (ps.foldl (fun st p => addr.set i p :: st) rest))
        | .ok (.addrs as) =>
          consE [.resolveCall name]
            (dialLoop env R inner dial_errors
              (dns_lookups + 1) dial_attempts
              ((expandAddrs (addr.take i) (addr.drop (i + 1)) 0 as).foldl
                (fun st a => a :: st) rest))
    | none =>
      match inner addr with
      | .accepted (.ok out) => (.success out, [.innerDial addr true])
      | .accepted (.error e) =>
        if rest.isEmpty then
          (finalError (dial_errors ++ [.transport e]),
            [.innerDial addr true, .recorded (.transport e)])
        else if dial_attempts + 1 = MAX_DIAL_ATTEMPTS then
          (finalError (dial_errors ++ [.transport e]),
            [.innerDial addr true, .recorded (.transport e)])
        else
          consE [.innerDial addr true, .recorded (.transport e)]
            (dialLoop env R inner (dial_errors ++ [.transport e])
              dns_lookups (dial_attempts + 1) rest)
      | .notSupported a =>
        if rest.isEmpty then
          (finalError (dial_errors ++ [.multiaddrNotSupported a]),
            [.innerDial addr false, .recorded (.multiaddrNotSupported a)])
        else if dial_attempts = MAX_DIAL_ATTEMPTS then
          (finalError (dial_errors ++ [.multiaddrNotSupported a]),
            [.innerDial addr false, .recorded (.multiaddrNotSupported a)])
        else
          consE [.innerDial addr false, .recorded (.multiaddrNotSupported a)]
            (dialLoop env R inner (dial_errors ++ [.multiaddrNotSupported a])
              dns_lookups dial_attempts rest)
      | .otherError e =>
        if rest.isEmpty then
          (finalError (dial_errors ++ [.transport e]),
            [.innerDial addr false, .recorded (.transport e)])
        else if dial_attempts = MAX_DIAL_ATTEMPTS then
          (finalError (dial_errors ++ [.transport e]),
            [.innerDial addr false, .recorded (.transport e)])
        else
          consE [.innerDial addr false, .recorded (.transport e)]
            (dialLoop env R inner (dial_errors ++ [.transport e])
              dns_lookups dial_attempts rest)
  termination_by _errs l _att work => (MAX_DNS_LOOKUPS - l, work.length)
  decreasing_by
    all_goals simp_wf
    all_goals first
      | exact Prod.Lex.right _ (by omega)
      | exact Prod.Lex.left _ _ (by omega)

/-- `do_dial`: the whole resolve-and-dial future of one wrapper dial,
started on the singleton work list holding the original address with all
counters at zero. -/
def do_dial {E O : Type} (env : Env) (R : Resolver)
    (inner : Multiaddr → InnerDialOutcome E O) (addr : Multiaddr) :
    DialOutcome E O × List (Event E) :=
  dialLoop env R inner [] 0 0 [addr]

/-- `TransportError` of the `libp2p_core` transport interface. -/
inductive TransportErr (E : Type) : Type where
  | multiaddrNotSupported : Multiaddr → TransportErr E
  | other : E → TransportErr E

/-- `Transport::dial` of the wrapper: `Ok(self.do_dial(addr, dial_opts))`. -/
def dial {E O : Type} (env : Env) (R : Resolver)
    (inner : Multiaddr → InnerDialOutcome E O) (addr : Multiaddr) :
    Except (TransportErr (Error E)) (DialOutcome E O × List (Event E)) :=
  .ok (do_dial env R inner addr)

/-- Recognises the resolver-lookup events of a trace. -/
def isResolveCall {E : Type} : Event E → Bool
  | .resolveCall _ => true
  | _ => false

/-- Recognises the accepted inner-dial events of a trace (inner produced a
dial future, so `dial_attempts` was incremented). -/
def isAcceptedDial {E : Type} : Event E → Bool
  | .innerDial _ b => b
  | _ => false

/-- The errors recorded along a trace, in recording order. -/
def recordedErrors {E : Type} (tr : List (Event E)) : List (Error E) :=
  tr.filterMap fun ev =>
    match ev with
    | .recorded e => some e
    | _ => none

theorem recordedErrors_append {E : Type} (a b : List (Event E)) :
    recordedErrors (a ++ b) = recordedErrors a ++ recordedErrors b := by
  simp [recordedErrors, List.filterMap_append]

theorem dialLoop_nil {E O : Type} (env : Env) (R : Resolver)
    (inner : Multiaddr → InnerDialOutcome E O) (errs : List (Error E)) (l att : Nat) :
    dialLoop env R inner errs l att [] = (finalError errs, []) := by
  simp [dialLoop]

theorem dialLoop_capped {E O : Type} {env : Env} {R : Resolver}
    {inner : Multiaddr → InnerDialOutcome E O} {errs : List (Error E)}
    {l att i : Nat} {addr : Multiaddr} {rest : List Multiaddr} {name : Protocol}
    (hfind : findName addr = some (i, name)) (hl : MAX_DNS_LOOKUPS ≤ l) :
    dialLoop env R inner errs l att (addr :: rest) =
      consE [.recorded .tooManyLookups]
        (dialLoop env R inner (errs ++ [.tooManyLookups]) l att rest) := by
  rw [dialLoop.eq_def]
  simp [hfind, hl]

theorem dialLoop_resolve_panic {E O : Type} {env : Env} {R : Resolver}
    {inner : Multiaddr → InnerDialOutcome E O} {errs : List (Error E)}
    {l att i : Nat} {addr : Multiaddr} {rest : List Multiaddr} {name : Protocol}
    (hfind : findName addr = some (i, name)) (hl : ¬ MAX_DNS_LOOKUPS ≤ l)
    (hres : resolve E env R name = .panicked) :
    dialLoop env R inner errs l att (addr :: rest) = (.panic, [.resolveCall name]) := by
  rw [dialLoop.eq_def]
  simp [hfind, hl, hres]

theorem dialLoop_resolve_err {E O : Type} {env : Env} {R : Resolver}
    {inner : Multiaddr → InnerDialOutcome E O} {errs : List (Error E)}
    {l att i : Nat} {addr : Multiaddr} {rest : List Multiaddr} {name : Protocol}
    {e : Error E}
    (hfind : findName addr = some (i, name)) (hl : ¬ MAX_DNS_LOOKUPS ≤ l)
    (hres : resolve E env R name = .err e) :
    dialLoop env R inner errs l att (addr :: rest) =
      consE [.resolveCall name, .recorded e]
        (dialLoop env R inner (errs ++ [e]) (l + 1) att rest) := by
  rw [dialLoop.eq_def]
  simp [hfind, hl, hres]

theorem dialLoop_resolve_one {E O : Type} {env : Env} {R : Resolver}
    {inner : Multiaddr → InnerDialOutcome E O} {errs : List (Error E)}
    {l att i : Nat} {addr : Multiaddr} {rest : List Multiaddr} {name p : Protocol}
    (hfind : findName addr = some (i, name)) (hl : ¬ MAX_DNS_LOOKUPS ≤ l)
    (hres : resolve E env R name = .ok (.one p)) :
    dialLoop env R inner errs l att (addr :: rest) =
      consE [.resolveCall name]
        (dialLoop env R inner errs (l + 1) att (addr.set i p :: rest)) := by
  rw [dialLoop.eq_def]
  simp [hfind, hl, hres]

theorem dialLoop_resolve_many {E O : Type} {env : Env} {R : Resolver}
    {inner : Multiaddr → InnerDialOutcome E O} {errs : List (Error E)}
    {l att i : Nat} {addr : Multiaddr} {rest : List Multiaddr} {name : Protocol}
    {ps : List Protocol}
    (hfind : findName addr = some (i, name)) (hl : ¬ MAX_DNS_LOOKUPS ≤ l)
    (hres : resolve E env R name = .ok (.many ps)) :
    dialLoop env R inner errs l att (addr :: rest) =
      consE [.resolveCall name]
        (dialLoop env R inner errs (l + 1) att
          (ps.foldl (fun st p => addr.set i p :: st) rest)) := by
  rw [dialLoop.eq_def]
  simp [hfind, hl, hres]

theorem dialLoop_resolve_addrs {E O : Type} {env : Env} {R : Resolver}
    {inner : Multiaddr → InnerDialOutcome E O} {errs : List (Error E)}
    {l att i : Nat} {addr : Multiaddr} {rest : List Multiaddr} {name : Protocol}
    {as : List Multiaddr}
    (hfind : findName addr = some (i, name)) (hl : ¬ MAX_DNS_LOOKUPS ≤ l)
    (hres : resolve E env R name = .ok (.addrs as)) :
    dialLoop env R inner errs l att (addr :: rest) =
      consE [.resolveCall name]
        (dialLoop env R inner errs (l + 1) att
          ((expandAddrs (addr.take i) (addr.drop (i + 1)) 0 as).foldl
            (fun st a => a :: st) rest)) := by
  rw [dialLoop.eq_def]
  simp [hfind, hl, hres]

theorem dialLoop_dial_ok {E O : Type} {env : Env} {R : Resolver}
    {inner : Multiaddr → InnerDialOutcome E O} {errs : List (Error E)}
    {l att : Nat} {addr : Multiaddr} {rest : List Multiaddr} {out : O}
    (hfind : findName addr = none) (hinner : inner addr = .accepted (.ok out)) :
    dialLoop env R inner errs l att (addr :: rest) =
      (.success out, [.innerDial addr true]) := by
  rw [dialLoop.eq_def]
  simp [hfind, hinner]

theorem dialLoop_dial_err_break {E O : Type} {env : Env} {R : Resolver}
    {inner : Multiaddr → InnerDialOutcome E O} {errs : List (Error E)}
    {l att : Nat} {addr : Multiaddr} {rest : List Multiaddr} {e : E}
    (hfind : findName addr = none) (hinner : inner addr = .accepted (.error e))
    (hbrk : rest.isEmpty = true ∨ att + 1 = MAX_DIAL_ATTEMPTS) :
    dialLoop env R inner errs l att (addr :: rest) =
      (finalError (errs ++ [.transport e]),
        [.innerDial addr true, .recorded (.transport e)]) := by
  rw [dialLoop.eq_def]
  rcases hbrk with h | h
  · simp [hfind, hinner, h]
  · simp [hfind, hinner, h, ite_self]

theorem dialLoop_dial_err_cont {E O : Type} {env : Env} {R : Resolver}
    {inner : Multiaddr → InnerDialOutcome E O} {errs : List (Error E)}
    {l att : Nat} {addr : Multiaddr} {rest : List Multiaddr} {e : E}
    (hfind : findName addr = none) (hinner : inner addr = .accepted (.error e))
    (hne : rest.isEmpty = false) (hatt : ¬ att + 1 = MAX_DIAL_ATTEMPTS) :
    dialLoop env R inner errs l att (addr :: rest) =
      consE [.innerDial addr true, .recorded (.transport e)]
        (dialLoop env R inner (errs ++ [.transport e]) l (att + 1) rest) := by
  rw [dialLoop.eq_def]
  simp [hfind, hinner, hne, hatt]

theorem dialLoop_notsup_break {E O : Type} {env : Env} {R : Resolver}
    {inner : Multiaddr → InnerDialOutcome E O} {errs : List (Error E)}
    {l att : Nat} {addr a : Multiaddr} {rest : List Multiaddr}
    (hfind : findName addr = none) (hinner : inner addr = .notSupported a)
    (hbrk : rest.isEmpty = true ∨ att = MAX_DIAL_ATTEMPTS) :
    dialLoop env R inner errs l att (addr :: rest) =
      (finalError (errs ++ [.multiaddrNotSupported a]),
        [.innerDial addr false, .recorded (.multiaddrNotSupported a)]) := by
  rw [dialLoop.eq_def]
  rcases hbrk with h | h
  · simp [hfind, hinner, h]
  · simp [hfind, hinner, h, ite_self]

theorem dialLoop_notsup_cont {E O : Type} {env : Env} {R : Resolver}
    {inner : Multiaddr → InnerDialOutcome E O} {errs : List (Error E)}
    {l att : Nat} {addr a : Multiaddr} {rest : List Multiaddr}
    (hfind : findName addr = none) (hinner : inner addr = .notSupported a)
    (hne : rest.isEmpty = false) (hatt : ¬ att = MAX_DIAL_ATTEMPTS) :
    dialLoop env R inner errs l att (addr :: rest) =
      consE [.innerDial addr false, .recorded (.multiaddrNotSupported a)]
        (dialLoop env R inner (errs ++ [.multiaddrNotSupported a]) l att rest) := by
  rw [dialLoop.eq_def]
  simp [hfind, hinner, hne, hatt]

theorem dialLoop_othererr_break {E O : Type} {env : Env} {R : Resolver}
    {inner : Multiaddr → InnerDialOutcome E O} {errs : List (Error E)}
    {l att : Nat} {addr : Multiaddr} {rest : List Multiaddr} {e : E}
    (hfind : findName addr = none) (hinner : inner addr = .otherError e)
    (hbrk : rest.isEmpty = true ∨ att = MAX_DIAL_ATTEMPTS) :
    dialLoop env R inner errs l att (addr :: rest) =
      (finalError (errs ++ [.transport e]),
        [.innerDial addr false, .recorded (.transport e)]) := by
  rw [dialLoop.eq_def]
  rcases hbrk with h | h
  · simp [hfind, hinner, h]
  · simp [hfind, hinner, h, ite_self]

theorem dialLoop_othererr_cont {E O : Type} {env : Env} {R : Resolver}
    {inner : Multiaddr → InnerDialOutcome E O} {errs : List (Error E)}
    {l att : Nat} {addr : Multiaddr} {rest : List Multiaddr} {e : E}
    (hfind : findName addr = none) (hinner : inner addr = .otherError e)
    (hne : rest.isEmpty = false) (hatt : ¬ att = MAX_DIAL_ATTEMPTS) :
    dialLoop env R inner errs l att (addr :: rest) =
      consE [.innerDial addr false, .recorded (.transport e)]
        (dialLoop env R inner (errs ++ [.transport e]) l att rest) := by
  rw [dialLoop.eq_def]
  simp [hfind, hinner, hne, hatt]

theorem find?_enumFrom_eq_none {f : Protocol → Bool} :
    ∀ (a : Multiaddr) (n : Nat),
      ((a.enumFrom n).find? fun ip => f ip.2) = none ↔ ∀ p ∈ a, f p = false := by
  intro a
  induction a with
  | nil => intro n; simp
  | cons p rest ih =>
    intro n
    by_cases hp : f p
    · simp [List.find?_cons_of_pos, hp]
    · rw [List.enumFrom_cons, List.find?_cons_of_neg _ (by simpa using hp)]
      simp [ih (n + 1), hp]

theorem findName_eq_none_iff (a : Multiaddr) :
    findName a = none ↔ hasNameComponent a = false := by
  have h := find?_enumFrom_eq_none (f := nameBearing) a 0
  rw [findName, List.enum]
  rw [h, hasNameComponent]
  simp [List.any_eq_false]

theorem findName_of_hasName {a : Multiaddr} (h : hasNameComponent a = true) :
    ∃ ip, findName a = some ip := by
  cases hf : findName a with
  | some ip => exact ⟨ip, rfl⟩
  | none =>
    rw [findName_eq_none_iff] at hf
    rw [hf] at h
    cases h

theorem foldl_cons_rev {α : Type} (l acc : List α) :
    l.foldl (fun st a => a :: st) acc = l.reverse ++ acc := by
  induction l generalizing acc with
  | nil => simp
  | cons a l ih => simp [ih]

theorem foldl_push_rev {α β : Type} (f : α → β) (l : List α) (acc : List β) :
    l.foldl (fun st a => f a :: st) acc = (l.map f).reverse ++ acc := by
  induction l generalizing acc with
  | nil => simp
  | cons a l ih => simp [ih]

theorem expandAddrs_eq (pfx suffix : Multiaddr) :
    ∀ (as : List Multiaddr) (n : Nat), n ≤ MAX_TXT_RECORDS →
      expandAddrs pfx suffix n as =
        ((as.filter fun b => suffix.isSuffixOf b).take (MAX_TXT_RECORDS - n)).map
          fun b => pfx ++ b := by
  intro as
  induction as with
  | nil => intro n _; simp [expandAddrs]
  | cons a rest ih =>
    intro n hn
    by_cases hs : suffix.isSuffixOf a
    · by_cases hlt : n < MAX_TXT_RECORDS
      · rw [expandAddrs, if_pos hs, if_pos hlt, ih (n + 1) hlt,
          List.filter_cons_of_pos hs]
        have hc : MAX_TXT_RECORDS - n = (MAX_TXT_RECORDS - (n + 1)) + 1 := by omega
        rw [hc, List.take_succ_cons, List.map_cons]
      · have hn16 : n = MAX_TXT_RECORDS := by omega
        rw [expandAddrs, if_pos hs, if_neg hlt, ih n hn,
          List.filter_cons_of_pos hs]
        have hc : MAX_TXT_RECORDS - n = 0 := by omega
        simp [hc]
    · rw [expandAddrs, if_neg hs, ih n hn, List.filter_cons_of_neg hs]

theorem lastSource_eq {E : Type} :
    ∀ (l : List (Error E)) (h : l ≠ []), lastSource l = (l.getLast h).source := by
  intro l
  induction l with
  | nil => intro h; exact absurd rfl h
  | cons e rest ih =>
    intro h
    cases rest with
    | nil => simp [lastSource, List.getLast]
    | cons f es =>
      rw [lastSource, List.getLast_cons (by simp)]
      exact ih (by simp)

theorem collectTxt_eq_filterMap (env : Env) :
    ∀ (txts : List (List (List Nat))),
      collectTxt env txts =
        txts.filterMap fun t =>
          t.head?.bind fun blob => (parse_dnsaddr_txt env blob).toOption := by
  intro txts
  induction txts with
  | nil => simp [collectTxt]
  | cons txt rest ih =>
    cases htxt : txt.head? with
    | none => simp [collectTxt, htxt, ih]
    | some blob =>
      cases hp : parse_dnsaddr_txt env blob with
      | error e => simp [collectTxt, htxt, hp, ih, Except.toOption]
      | ok a => simp [collectTxt, htxt, hp, ih, Except.toOption]

theorem dialLoop_dials_resolved {E O : Type} (env : Env) (R : Resolver)
    (inner : Multiaddr → InnerDialOutcome E O) :
    ∀ (errs : List (Error E)) (l att : Nat) (work : List Multiaddr)
      (a : Multiaddr) (b : Bool),
      Event.innerDial a b ∈ (dialLoop env R inner errs l att work).2 →
      hasNameComponent a = false := by
  intro errs l att work
  induction errs, l, att, work using dialLoop.induct env R inner with
  | case1 errs x y =>
    intro a b h
    rw [dialLoop_nil] at h
    simp at h
  | case2 errs l att addr rest i name hfind hl ih =>
    intro a b h
    rw [dialLoop_capped hfind hl] at h
    simp only [consE, List.mem_append, List.mem_singleton] at h
    rcases h with h | h
    · simp at h
    · exact ih a b h
  | case3 errs l att addr rest i name hfind hl hres =>
    intro a b h
    rw [dialLoop_resolve_panic hfind hl hres] at h
    simp at h
  | case4 errs l att addr rest i name hfind hl e hres ih =>
    intro a b h
    rw [dialLoop_resolve_err hfind hl hres] at h
    simp only [consE, List.mem_append, List.mem_cons, List.mem_singleton] at h
    rcases h with (h | h) | h
    · simp at h
    · simp at h
    · exact ih a b h
  | case5 errs l att addr rest i name hfind hl p hres ih =>
    intro a b h
    rw [dialLoop_resolve_one hfind hl hres] at h
    simp only [consE, List.mem_append, List.mem_singleton] at h
    rcases h with h | h
    · simp at h
    · exact ih a b h
  | case6 errs l att addr rest i name hfind hl ps hres ih =>
    intro a b h
    rw [dialLoop_resolve_many hfind hl hres] at h
    simp only [consE, List.mem_append, List.mem_singleton] at h
    rcases h with h | h
    · simp at h
    · exact ih a b h
  | case7 errs l att addr rest i name hfind hl as hres ih =>
    intro a b h
    rw [dialLoop_resolve_addrs hfind hl hres] at h
    simp only [consE, List.mem_append, List.mem_singleton] at h
    rcases h with h | h
    · simp at h
    · exact ih a b h
  | case8 errs l att addr rest hfind out hinner =>
    intro a b h
    rw [dialLoop_dial_ok hfind hinner] at h
    simp at h
    rw [h.1]
    exact (findName_eq_none_iff addr).mp hfind
  | case9 errs l att addr rest hfind e hinner hemp =>
    intro a b h
    rw [dialLoop_dial_err_break hfind hinner (Or.inl hemp)] at h
    simp at h
    rw [h.1]
    exact (findName_eq_none_iff addr).mp hfind
  | case10 errs l att addr rest hfind e hinner hemp hcap =>
    intro a b h
    rw [dialLoop_dial_err_break hfind hinner (Or.inr hcap)] at h
    simp at h
    rw [h.1]
    exact (findName_eq_none_iff addr).mp hfind
  | case11 errs l att addr rest hfind e hinner hemp hcap ih =>
    intro a b h
    rw [dialLoop_dial_err_cont hfind hinner (by simpa using hemp) hcap] at h
    simp only [consE, List.mem_append, List.mem_cons, List.mem_singleton] at h
    rcases h with (h | h) | h
    · injection h with h1 h2; rw [h1]; exact (findName_eq_none_iff addr).mp hfind
    · simp at h
    · exact ih a b h
  | case12 errs l att addr rest hfind a0 hinner hemp =>
    intro a b h
    rw [dialLoop_notsup_break hfind hinner (Or.inl hemp)] at h
    simp at h
    rw [h.1]
    exact (findName_eq_none_iff addr).mp hfind
  | case13 errs l addr rest hfind a0 hinner hemp =>
    intro a b h
    rw [dialLoop_notsup_break hfind hinner (Or.inr rfl)] at h
    simp at h
    rw [h.1]
    exact (findName_eq_none_iff addr).mp hfind
  | case14 errs l att addr rest hfind a0 hinner hemp hcap ih =>
    intro a b h
    rw [dialLoop_notsup_cont hfind hinner (by simpa using hemp) hcap] at h
    simp only [consE, List.mem_append, List.mem_cons, List.mem_singleton] at h
    rcases h with (h | h) | h
    · injection h with h1 h2; rw [h1]; exact (findName_eq_none_iff addr).mp hfind
    · simp at h
    · exact ih a b h
  | case15 errs l att addr rest hfind e hinner hemp =>
    intro a b h
    rw [dialLoop_othererr_break hfind hinner (Or.inl hemp)] at h
    simp at h
    rw [h.1]
    exact (findName_eq_none_iff addr).mp hfind
  | case16 errs l addr rest hfind e hinner hemp =>
    intro a b h
    rw [dialLoop_othererr_break hfind hinner (Or.inr rfl)] at h
    simp at h
    rw [h.1]
    exact (findName_eq_none_iff addr).mp hfind
  | case17 errs l att addr rest hfind e hinner hemp hcap ih =>
    intro a b h
    rw [dialLoop_othererr_cont hfind hinner (by simpa using hemp) hcap] at h
    simp only [consE, List.mem_append, List.mem_cons, List.mem_singleton] at h
    rcases h with (h | h) | h
    · injection h with h1 h2; rw [h1]; exact (findName_eq_none_iff addr).mp hfind
    · simp at h
    · exact ih a b h

theorem dialLoop_resolve_bound {E O : Type} (env : Env) (R : Resolver)
    (inner : Multiaddr → InnerDialOutcome E O) :
    ∀ (errs : List (Error E)) (l att : Nat) (work : List Multiaddr),
      l ≤ MAX_DNS_LOOKUPS →
      (dialLoop env R inner errs l att work).2.countP isResolveCall + l ≤
        MAX_DNS_LOOKUPS := by
  intro errs l att work
  induction errs, l, att, work using dialLoop.induct env R inner with
  | case1 errs x y =>
    intro h
    rw [dialLoop_nil]
    simpa using h
  | case2 errs l att addr rest i name hfind hl ih =>
    intro h
    rw [dialLoop_capped hfind hl]
    have h2 := ih h
    simp [consE, isResolveCall, List.countP_cons]
    omega
  | case3 errs l att addr rest i name hfind hl hres =>
    intro h
    rw [dialLoop_resolve_panic hfind hl hres]
    simp [isResolveCall, List.countP_cons]
    omega
  | case4 errs l att addr rest i name hfind hl e hres ih =>
    intro h
    rw [dialLoop_resolve_err hfind hl hres]
    have h2 := ih (by omega)
    simp [consE, isResolveCall, List.countP_cons]
    omega
  | case5 errs l att addr rest i name hfind hl p hres ih =>
    intro h
    rw [dialLoop_resolve_one hfind hl hres]
    have h2 := ih (by omega)
    simp [consE, isResolveCall, List.countP_cons]
    omega
  | case6 errs l att addr rest i name hfind hl ps hres ih =>
    intro h
    rw [dialLoop_resolve_many hfind hl hres]
    have h2 := ih (by omega)
    simp [consE, isResolveCall, List.countP_cons]
    omega
  | case7 errs l att addr rest i name hfind hl as hres ih =>
    intro h
    rw [dialLoop_resolve_addrs hfind hl hres]
    have h2 := ih (by omega)
    simp [consE, isResolveCall, List.countP_cons, foldl_cons_rev] at h2 ⊢
    omega
  | case8 errs l att addr rest hfind out hinner =>
    intro h
    rw [dialLoop_dial_ok hfind hinner]
    simp [isResolveCall, List.countP_cons]
    omega
  | case9 errs l att addr rest hfind e hinner hemp =>
    intro h
    rw [dialLoop_dial_err_break hfind hinner (Or.inl hemp)]
    simp [isResolveCall, List.countP_cons]
    omega
  | case10 errs l att addr rest hfind e hinner hemp hcap =>
    intro h
    rw [dialLoop_dial_err_break hfind hinner (Or.inr hcap)]
    simp [isResolveCall, List.countP_cons]
    omega
  | case11 errs l att addr rest hfind e hinner hemp hcap ih =>
    intro h
    rw [dialLoop_dial_err_cont hfind hinner (by simpa using hemp) hcap]
    have h2 := ih h
    simp [consE, isResolveCall, List.countP_cons]
    omega
  | case12 errs l att addr rest hfind a0 hinner hemp =>
    intro h
    rw [dialLoop_notsup_break hfind hinner (Or.inl hemp)]
    simp [isResolveCall, List.countP_cons]
    omega
  | case13 errs l addr rest hfind a0 hinner hemp =>
    intro h
    rw [dialLoop_notsup_break hfind hinner (Or.inr rfl)]
    simp [isResolveCall, List.countP_cons]
    omega
  | case14 errs l att addr rest hfind a0 hinner hemp hcap ih =>
    intro h
    rw [dialLoop_notsup_cont hfind hinner (by simpa using hemp) hcap]
    have h2 := ih h
    simp [consE, isResolveCall, List.countP_cons]
    omega
  | case15 errs l att addr rest hfind e hinner hemp =>
    intro h
    rw [dialLoop_othererr_break hfind hinner (Or.inl hemp)]
    simp [isResolveCall, List.countP_cons]
    omega
  | case16 errs l addr rest hfind e hinner hemp =>
    intro h
    rw [dialLoop_othererr_break hfind hinner (Or.inr rfl)]
    simp [isResolveCall, List.countP_cons]
    omega
  | case17 errs l att addr rest hfind e hinner hemp hcap ih =>
    intro h
    rw [dialLoop_othererr_cont hfind hinner (by simpa using hemp) hcap]
    have h2 := ih h
    simp [consE, isResolveCall, List.countP_cons]
    omega

theorem dialLoop_attempt_bound {E O : Type} (env : Env) (R : Resolver)
    (inner : Multiaddr → InnerDialOutcome E O) :
    ∀ (errs : List (Error E)) (l att : Nat) (work : List Multiaddr),
      att < MAX_DIAL_ATTEMPTS →
      (dialLoop env R inner errs l att work).2.countP isAcceptedDial + att ≤
        MAX_DIAL_ATTEMPTS := by
  intro errs l att work
  induction errs, l, att, work using dialLoop.induct env R inner with
  | case1 errs x y =>
    intro h
    rw [dialLoop_nil]
    simp
    omega
  | case2 errs l att addr rest i name hfind hl ih =>
    intro h
    rw [dialLoop_capped hfind hl]
    have h2 := ih h
    simp [consE, isAcceptedDial, List.countP_cons]
    omega
  | case3 errs l att addr rest i name hfind hl hres =>
    intro h
    rw [dialLoop_resolve_panic hfind hl hres]
    simp [isAcceptedDial, List.countP_cons]
    omega
  | case4 errs l att addr rest i name hfind hl e hres ih =>
    intro h
    rw [dialLoop_resolve_err hfind hl hres]
    have h2 := ih h
    simp [consE, isAcceptedDial, List.countP_cons]
    omega
  | case5 errs l att addr rest i name hfind hl p hres ih =>
    intro h
    rw [dialLoop_resolve_one hfind hl hres]
    have h2 := ih h
    simp [consE, isAcceptedDial, List.countP_cons]
    omega
  | case6 errs l att addr rest i name hfind hl ps hres ih =>
    intro h
    rw [dialLoop_resolve_many hfind hl hres]
    have h2 := ih h
    simp [consE, isAcceptedDial, List.countP_cons]
    omega
  | case7 errs l att addr rest i name hfind hl as hres ih =>
    intro h
    rw [dialLoop_resolve_addrs hfind hl hres]
    have h2 := ih h
    simp [consE, isAcceptedDial, List.countP_cons, foldl_cons_rev] at h2 ⊢
    omega
  | case8 errs l att addr rest hfind out hinner =>
    intro h
    rw [dialLoop_dial_ok hfind hinner]
    simp [isAcceptedDial, List.countP_cons]
    omega
  | case9 errs l att addr rest hfind e hinner hemp =>
    intro h
    rw [dialLoop_dial_err_break hfind hinner (Or.inl hemp)]
    simp [isAcceptedDial, List.countP_cons]
    omega
  | case10 errs l att addr rest hfind e hinner hemp hcap =>
    intro h
    rw [dialLoop_dial_err_break hfind hinner (Or.inr hcap)]
    simp [isAcceptedDial, List.countP_cons]
    omega
  | case11 errs l att addr rest hfind e hinner hemp hcap ih =>
    intro h
    have h2 := ih (by omega)
    rw [dialLoop_dial_err_cont hfind hinner (by simpa using hemp) hcap]
    simp [consE, isAcceptedDial, List.countP_cons]
    omega
  | case12 errs l att addr rest hfind a0 hinner hemp =>
    intro h
    rw [dialLoop_notsup_break hfind hinner (Or.inl hemp)]
    simp [isAcceptedDial, List.countP_cons]
    omega
  | case13 errs l addr rest hfind a0 hinner hemp =>
    intro h
    exact absurd h (lt_irrefl _)
  | case14 errs l att addr rest hfind a0 hinner hemp hcap ih =>
    intro h
    rw [dialLoop_notsup_cont hfind hinner (by simpa using hemp) hcap]
    have h2 := ih h
    simp [consE, isAcceptedDial, List.countP_cons]
    omega
  | case15 errs l att addr rest hfind e hinner hemp =>
    intro h
    rw [dialLoop_othererr_break hfind hinner (Or.inl hemp)]
    simp [isAcceptedDial, List.countP_cons]
    omega
  | case16 errs l addr rest hfind e hinner hemp =>
    intro h
    exact absurd h (lt_irrefl _)
  | case17 errs l att addr rest hfind e hinner hemp hcap ih =>
    intro h
    rw [dialLoop_othererr_cont hfind hinner (by simpa using hemp) hcap]
    have h2 := ih h
    simp [consE, isAcceptedDial, List.countP_cons]
    omega

theorem dialLoop_failure_agg {E O : Type} (env : Env) (R : Resolver)
    (inner : Multiaddr → InnerDialOutcome E O) :
    ∀ (errs : List (Error E)) (l att : Nat) (work : List Multiaddr)
      (e : Error E),
      (dialLoop env R inner errs l att work).1 = .failure e →
      e = mkAgg (errs ++ recordedErrors (dialLoop env R inner errs l att work).2) := by
  intro errs l att work
  induction errs, l, att, work using dialLoop.induct env R inner with
  | case1 errs x y =>
    intro e h
    rw [dialLoop_nil] at h ⊢
    simp [finalError] at h
    simp [recordedErrors, ← h]
  | case2 errs l att addr rest i name hfind hl ih =>
    intro e h
    rw [dialLoop_capped hfind hl] at h ⊢
    simp only [consE] at h
    have h2 := ih e h
    rw [h2]
    simp [consE, recordedErrors_append, recordedErrors]
  | case3 errs l att addr rest i name hfind hl hres =>
    intro e h
    rw [dialLoop_resolve_panic hfind hl hres] at h
    simp at h
  | case4 errs l att addr rest i name hfind hl e0 hres ih =>
    intro e h
    rw [dialLoop_resolve_err hfind hl hres] at h ⊢
    simp only [consE] at h
    have h2 := ih e h
    rw [h2]
    simp [consE, recordedErrors_append, recordedErrors]
  | case5 errs l att addr rest i name hfind hl p hres ih =>
    intro e h
    rw [dialLoop_resolve_one hfind hl hres] at h ⊢
    simp only [consE] at h
    have h2 := ih e h
    rw [h2]
    simp [consE, recordedErrors_append, recordedErrors]
  | case6 errs l att addr rest i name hfind hl ps hres ih =>
    intro e h
    rw [dialLoop_resolve_many hfind hl hres] at h ⊢
    simp only [consE] at h
    have h2 := ih e h
    rw [h2]
    simp [consE, recordedErrors_append, recordedErrors]
  | case7 errs l att addr rest i name hfind hl as hres ih =>
    intro e h
    rw [dialLoop_resolve_addrs hfind hl hres] at h ⊢
    simp only [consE] at h
    have h2 := ih e h
    rw [h2]
    simp [consE, recordedErrors_append, recordedErrors]
  | case8 errs l att addr rest hfind out hinner =>
    intro e h
    rw [dialLoop_dial_ok hfind hinner] at h
    simp at h
  | case9 errs l att addr rest hfind e0 hinner hemp =>
    intro e h
    rw [dialLoop_dial_err_break hfind hinner (Or.inl hemp)] at h ⊢
    simp [finalError] at h
    simp [recordedErrors, ← h]
  | case10 errs l att addr rest hfind e0 hinner hemp hcap =>
    intro e h
    rw [dialLoop_dial_err_break hfind hinner (Or.inr hcap)] at h ⊢
    simp [finalError] at h
    simp [recordedErrors, ← h]
  | case11 errs l att addr rest hfind e0 hinner hemp hcap ih =>
    intro e h
    rw [dialLoop_dial_err_cont hfind hinner (by simpa using hemp) hcap] at h ⊢
    simp only [consE] at h
    have h2 := ih e h
    rw [h2]
    simp [consE, recordedErrors_append, recordedErrors]
  | case12 errs l att addr rest hfind a0 hinner hemp =>
    intro e h
    rw [dialLoop_notsup_break hfind hinner (Or.inl hemp)] at h ⊢
    simp [finalError] at h
    simp [recordedErrors, ← h]
  | case13 errs l addr rest hfind a0 hinner hemp =>
    intro e h
    rw [dialLoop_notsup_break hfind hinner (Or.inr rfl)] at h ⊢
    simp [finalError] at h
    simp [recordedErrors, ← h]
  | case14 errs l att addr rest hfind a0 hinner hemp hcap ih =>
    intro e h
    rw [dialLoop_notsup_cont hfind hinner (by simpa using hemp) hcap] at h ⊢
    simp only [consE] at h
    have h2 := ih e h
    rw [h2]
    simp [consE, recordedErrors_append, recordedErrors]
  | case15 errs l att addr rest hfind e0 hinner hemp =>
    intro e h
    rw [dialLoop_othererr_break hfind hinner (Or.inl hemp)] at h ⊢
    simp [finalError] at h
    simp [recordedErrors, ← h]
  | case16 errs l addr rest hfind e0 hinner hemp =>
    intro e h
    rw [dialLoop_othererr_break hfind hinner (Or.inr rfl)] at h ⊢
    simp [finalError] at h
    simp [recordedErrors, ← h]
  | case17 errs l att addr rest hfind e0 hinner hemp hcap ih =>
    intro e h
    rw [dialLoop_othererr_cont hfind hinner (by simpa using hemp) hcap] at h ⊢
    simp only [consE] at h
    have h2 := ih e h
    rw [h2]
    simp [consE, recordedErrors_append, recordedErrors]

/-- Sample oracles used to exercise the definitions on concrete inputs. -/
def sampleEnv : Env := ⟨fun _ => .error "utf8", fun _ => .error "ma"⟩

/-- A sample resolver: one A record, one v4 record, one v6 record, no TXT
records relevant to any address. -/
def sampleResolver : Resolver :=
  ⟨fun _ => .ok [.v4 1], fun _ => .ok [7], fun _ => .ok [9], fun _ => .ok []⟩

/-- A sample inner transport that accepts every address and succeeds. -/
def sampleInnerOk : Multiaddr → InnerDialOutcome Unit Unit :=
  fun _ => .accepted (.ok ())

/-- A sample inner transport that synchronously refuses every address. -/
def sampleInnerNotSup : Multiaddr → InnerDialOutcome Unit Unit :=
  fun _ => .notSupported [.other 0]

/-- C1: for every wrapper dial call and every invocation of the inner
transport's dial that it makes, the address passed to the inner dial
contains no `Dns`, `Dns4`, `Dns6` or `Dnsaddr` component (it is fully
resolved). -/
theorem claim1_resolved_addresses_only {E O : Type} (env : Env) (R : Resolver)
    (inner : Multiaddr → InnerDialOutcome E O) (addr a : Multiaddr) (accepted : Bool)
    (h : Event.innerDial a accepted ∈ (do_dial env R inner addr).2) :
    hasNameComponent a = false ∧ ∀ p ∈ a, nameBearing p = false := by
  have h1 := dialLoop_dials_resolved env R inner [] 0 0 [addr] a accepted h
  refine ⟨h1, ?_⟩
  rw [hasNameComponent, List.any_eq_false] at h1
  intro p hp
  simpa using h1 p hp

theorem claim1_witness :
    hasNameComponent [Protocol.ip4 1, Protocol.tcp 4] = false :=
  (claim1_resolved_addresses_only sampleEnv sampleResolver sampleInnerOk
    [Protocol.ip4 1, Protocol.tcp 4] [Protocol.ip4 1, Protocol.tcp 4] true
    (by simp [do_dial, dialLoop, findName, sampleInnerOk, consE, nameBearing,
      List.find?])).1

/-- C2: for every wrapper dial call, the number of resolver lookup calls is
at most 32; and when `dns_lookups` has reached 32 and an address with a
name-bearing component is popped, a `TooManyLookups` error is recorded, the
address is discarded without a resolver call (the step contributes no
`resolveCall` event), and the loop continues on the remaining work. -/
theorem claim2_lookup_bound {E O : Type} (env : Env) (R : Resolver)
    (inner : Multiaddr → InnerDialOutcome E O) (addr : Multiaddr) :
    ((do_dial env R inner addr).2.countP isResolveCall ≤ MAX_DNS_LOOKUPS) ∧
    (∀ (errs : List (Error E)) (att : Nat) (a : Multiaddr) (rest : List Multiaddr),
      hasNameComponent a = true →
      dialLoop env R inner errs MAX_DNS_LOOKUPS att (a :: rest) =
        consE [.recorded .tooManyLookups]
          (dialLoop env R inner (errs ++ [.tooManyLookups]) MAX_DNS_LOOKUPS att rest)) := by
  constructor
  · have h := dialLoop_resolve_bound env R inner [] 0 0 [addr] (Nat.zero_le _)
    simpa [do_dial] using h
  · intro errs att a rest hname
    obtain ⟨⟨i, name⟩, hfind⟩ := findName_of_hasName hname
    exact dialLoop_capped hfind le_rfl

theorem claim2_witness :
    ((do_dial sampleEnv sampleResolver sampleInnerOk [Protocol.dns4 "h"]).2.countP
        isResolveCall ≤ MAX_DNS_LOOKUPS) ∧
    dialLoop sampleEnv sampleResolver sampleInnerOk [] MAX_DNS_LOOKUPS 0
        [[Protocol.dns4 "h"]] =
      consE [Event.recorded Error.tooManyLookups]
        (dialLoop sampleEnv sampleResolver sampleInnerOk
          ([] ++ [Error.tooManyLookups]) MAX_DNS_LOOKUPS 0 []) :=
  ⟨(claim2_lookup_bound sampleEnv sampleResolver sampleInnerOk [Protocol.dns4 "h"]).1,
   (claim2_lookup_bound sampleEnv sampleResolver sampleInnerOk [Protocol.dns4 "h"]).2
     [] 0 [Protocol.dns4 "h"] [] (by decide)⟩

/-- C3: for every wrapper dial call, the number of accepted inner dial
invocations (those for which inner produced a dial future) is at most 16;
an inner dial refused synchronously with `MultiaddrNotSupported` or another
synchronous error is recorded as an error but the continuation runs with
`dial_attempts` unchanged. -/
theorem claim3_dial_attempt_bound {E O : Type} (env : Env) (R : Resolver)
    (inner : Multiaddr → InnerDialOutcome E O) (addr : Multiaddr) :
    ((do_dial env R inner addr).2.countP isAcceptedDial ≤ MAX_DIAL_ATTEMPTS) ∧
    (∀ (errs : List (Error E)) (l att : Nat) (a : Multiaddr)
        (rest : List Multiaddr) (m : Multiaddr),
      hasNameComponent a = false → inner a = .notSupported m →
      rest.isEmpty = false → att ≠ MAX_DIAL_ATTEMPTS →
      dialLoop env R inner errs l att (a :: rest) =
        consE [.innerDial a false, .recorded (.multiaddrNotSupported m)]
          (dialLoop env R inner (errs ++ [.multiaddrNotSupported m]) l att rest)) ∧
    (∀ (errs : List (Error E)) (l att : Nat) (a : Multiaddr)
        (rest : List Multiaddr) (e : E),
      hasNameComponent a = false → inner a = .otherError e →
      rest.isEmpty = false → att ≠ MAX_DIAL_ATTEMPTS →
      dialLoop env R inner errs l att (a :: rest) =
        consE [.innerDial a false, .recorded (.transport e)]
          (dialLoop env R inner (errs ++ [.transport e]) l att rest)) := by
  refine ⟨?_, ?_, ?_⟩
  · have h := dialLoop_attempt_bound env R inner [] 0 0 [addr] (by decide)
    simpa [do_dial] using h
  · intro errs l att a rest m hname hinner hne hatt
    exact dialLoop_notsup_cont ((findName_eq_none_iff a).mpr hname) hinner hne hatt
  · intro errs l att a rest e hname hinner hne hatt
    exact dialLoop_othererr_cont ((findName_eq_none_iff a).mpr hname) hinner hne hatt

theorem claim3_witness :
    ((do_dial sampleEnv sampleResolver sampleInnerNotSup [Protocol.ip4 1]).2.countP
        isAcceptedDial ≤ MAX_DIAL_ATTEMPTS) ∧
    dialLoop sampleEnv sampleResolver sampleInnerNotSup [] 0 0
        [[Protocol.ip4 1], [Protocol.ip4 2]] =
      consE [Event.innerDial [Protocol.ip4 1] false,
        Event.recorded (Error.multiaddrNotSupported [Protocol.other 0])]
        (dialLoop sampleEnv sampleResolver sampleInnerNotSup
          ([] ++ [Error.multiaddrNotSupported [Protocol.other 0]]) 0 0
          [[Protocol.ip4 2]]) :=
  ⟨(claim3_dial_attempt_bound sampleEnv sampleResolver sampleInnerNotSup
      [Protocol.ip4 1]).1,
   (claim3_dial_attempt_bound sampleEnv sampleResolver sampleInnerNotSup
      [Protocol.ip4 1]).2.1 [] 0 0 [Protocol.ip4 1] [[Protocol.ip4 2]]
      [Protocol.other 0] (by decide) rfl rfl (by decide)⟩

/-- C4: for every wrapper dial call that terminates in failure, the
returned error is `Dial` over exactly the recorded error list when any
error was recorded, and `ResolveError("No Matching Records Found")` when
none was (this is what `mkAgg` computes). -/
theorem claim4_failure_aggregation {E O : Type} (env : Env) (R : Resolver)
    (inner : Multiaddr → InnerDialOutcome E O) (addr : Multiaddr) (e : Error E)
    (h : (do_dial env R inner addr).1 = .failure e) :
    e = mkAgg (recordedErrors (do_dial env R inner addr).2) := by
  have h2 := dialLoop_failure_agg env R inner [] 0 0 [addr] e h
  simpa [do_dial] using h2

theorem claim4_witness :
    Error.dial [Error.multiaddrNotSupported [Protocol.other 0]] =
      mkAgg (recordedErrors
        (do_dial sampleEnv sampleResolver sampleInnerNotSup [Protocol.ip4 1]).2) :=
  claim4_failure_aggregation sampleEnv sampleResolver sampleInnerNotSup
    [Protocol.ip4 1] (Error.dial [Error.multiaddrNotSupported [Protocol.other 0]])
    (by simp [do_dial, dialLoop, findName, sampleInnerNotSup, consE, nameBearing,
      finalError, mkAgg, List.find?])

/-- C5: when an `Addrs(bs)` outcome is processed for an address with its
first name-bearing component at index `i`, exactly the `b` in `bs` whose
tail equals the suffix after index `i` are accepted (in order, at most 16
of them, the surplus dropped), each pushed as the prefix before index `i`
followed by the whole `b`; non-matching `b` are skipped. -/
theorem claim5_txt_expansion {E O : Type} (env : Env) (R : Resolver)
    (inner : Multiaddr → InnerDialOutcome E O) (errs : List (Error E))
    (l att i : Nat) (addr : Multiaddr) (rest : List Multiaddr) (name : Protocol)
    (bs : List Multiaddr)
    (hfind : findName addr = some (i, name)) (hl : ¬ MAX_DNS_LOOKUPS ≤ l)
    (hres : resolve E env R name = .ok (.addrs bs)) :
    dialLoop env R inner errs l att (addr :: rest) =
      consE [.resolveCall name]
        (dialLoop env R inner errs (l + 1) att
          ((((bs.filter fun b => (addr.drop (i + 1)).isSuffixOf b).take
              MAX_TXT_RECORDS).map fun b => addr.take i ++ b).reverse ++ rest)) := by
  rw [dialLoop_resolve_addrs hfind hl hres, foldl_cons_rev,
    expandAddrs_eq (addr.take i) (addr.drop (i + 1)) bs 0 (Nat.zero_le _)]
  simp

theorem claim5_witness :
    dialLoop sampleEnv sampleResolver sampleInnerOk [] 0 0
        [[Protocol.dnsaddr "x", Protocol.tcp 1]] =
      consE [Event.resolveCall (Protocol.dnsaddr "x")]
        (dialLoop sampleEnv sampleResolver sampleInnerOk [] (0 + 1) 0
          ((((([] : List Multiaddr).filter (fun b =>
              (([Protocol.dnsaddr "x", Protocol.tcp 1] : Multiaddr).drop
                (0 + 1)).isSuffixOf b)).take MAX_TXT_RECORDS).map (fun b =>
              ([Protocol.dnsaddr "x", Protocol.tcp 1] : Multiaddr).take 0 ++ b)).reverse
            ++ [])) :=
  claim5_txt_expansion sampleEnv sampleResolver sampleInnerOk [] 0 0 0
    [Protocol.dnsaddr "x", Protocol.tcp 1] [] (Protocol.dnsaddr "x") []
    rfl (by decide) rfl

/-- C6: for a `Dns(name)` component (and analogously `Dns4` with
`ipv4_lookup` and `Dns6` with `ipv6_lookup`), when a successful lookup
returns at least one record: exactly one record gives `One` of that IP, two
or more give `Many` of all records in resolver order, and the first-record
unwrap never reaches its failure branch (`panicked`). -/
theorem claim6_resolve_one_many (E : Type) (env : Env) (R : Resolver) (name : String) :
    (∀ ips, R.lookup_ip name = .ok ips → ips ≠ [] →
      (resolve E env R (.dns name) ≠ .panicked) ∧
      (∀ ip, ips = [ip] →
        resolve E env R (.dns name) = .ok (.one (Protocol.fromIp ip))) ∧
      (2 ≤ ips.length →
        resolve E env R (.dns name) = .ok (.many (ips.map Protocol.fromIp)))) ∧
    (∀ ips, R.ipv4_lookup name = .ok ips → ips ≠ [] →
      (resolve E env R (.dns4 name) ≠ .panicked) ∧
      (∀ ip, ips = [ip] →
        resolve E env R (.dns4 name) = .ok (.one (.ip4 ip))) ∧
      (2 ≤ ips.length →
        resolve E env R (.dns4 name) = .ok (.many (ips.map Protocol.ip4)))) ∧
    (∀ ips, R.ipv6_lookup name = .ok ips → ips ≠ [] →
      (resolve E env R (.dns6 name) ≠ .panicked) ∧
      (∀ ip, ips = [ip] →
        resolve E env R (.dns6 name) = .ok (.one (.ip6 ip))) ∧
      (2 ≤ ips.length →
        resolve E env R (.dns6 name) = .ok (.many (ips.map Protocol.ip6)))) := by
  refine ⟨?_, ?_, ?_⟩ <;>
  · intro ips hok hne
    refine ⟨?_, ?_, ?_⟩
    · cases ips with
      | nil => exact absurd rfl hne
      | cons a t =>
        cases t with
        | nil => simp [resolve, hok]
        | cons b t2 => simp [resolve, hok]
    · intro ip hip
      subst hip
      simp [resolve, hok]
    · intro hlen
      cases ips with
      | nil => simp at hlen
      | cons a t =>
        cases t with
        | nil => simp at hlen
        | cons b t2 => simp [resolve, hok]

theorem claim6_witness :
    resolve Unit sampleEnv sampleResolver (.dns "h") =
      .ok (.one (Protocol.fromIp (.v4 1))) :=
  (((claim6_resolve_one_many Unit sampleEnv sampleResolver "h").1 [.v4 1] rfl
    (by decide)).2.1 (.v4 1) rfl)

/-- C7: for a `Dnsaddr(name)` component, `txt_lookup` is consulted at
`"_dnsaddr." ++ name`; only the first character-string blob of each TXT
record is parsed, records without a blob or failing to parse are skipped
without aborting, and the outcome is `Addrs` of exactly the successfully
parsed multiaddresses (possibly empty). -/
theorem claim7_dnsaddr_txt (E : Type) (env : Env) (R : Resolver) (name : String)
    (txts : List (List (List Nat)))
    (hok : R.txt_lookup (dnsaddrLabel ++ name) = .ok txts) :
    resolve E env R (.dnsaddr name) =
      .ok (.addrs (txts.filterMap fun t =>
        t.head?.bind fun blob => (parse_dnsaddr_txt env blob).toOption)) := by
  simp [resolve, hok, collectTxt_eq_filterMap]

theorem claim7_witness :
    resolve Unit sampleEnv sampleResolver (.dnsaddr "x") =
      .ok (.addrs (([] : List (List (List Nat))).filterMap fun t =>
        t.head?.bind fun blob => (parse_dnsaddr_txt sampleEnv blob).toOption)) :=
  claim7_dnsaddr_txt Unit sampleEnv sampleResolver "x" [] rfl

/-- C8: `parse_dnsaddr_txt` returns `InvalidData` when the bytes are not
valid UTF-8; returns `InvalidData` with message "Missing \`dnsaddr=\`
prefix." when the decoded string does not start with the literal
`dnsaddr=`; and otherwise parses the remainder after the prefix as a
multiaddress, mapping any parse error to `InvalidData` and returning the
multiaddress on success. -/
theorem claim8_parse_dnsaddr (env : Env) (bytes : List Nat) :
    (∀ e, env.utf8Decode bytes = .error e →
      parse_dnsaddr_txt env bytes = .error (.invalidData e)) ∧
    (∀ s, env.utf8Decode bytes = .ok s → s.startsWith "dnsaddr=" = false →
      parse_dnsaddr_txt env bytes =
        .error (.invalidData "Missing `dnsaddr=` prefix.")) ∧
    (∀ s, env.utf8Decode bytes = .ok s → s.startsWith "dnsaddr=" = true →
      (∀ e, env.parseMultiaddr (s.drop "dnsaddr=".length) = .error e →
        parse_dnsaddr_txt env bytes = .error (.invalidData e)) ∧
      (∀ a, env.parseMultiaddr (s.drop "dnsaddr=".length) = .ok a →
        parse_dnsaddr_txt env bytes = .ok a)) := by
  refine ⟨?_, ?_, ?_⟩
  · intro e he
    simp [parse_dnsaddr_txt, he]
  · intro s hs hpre
    simp [parse_dnsaddr_txt, hs, hpre]
  · intro s hs hpre
    constructor
    · intro e he
      simp [parse_dnsaddr_txt, hs, hpre, he]
    · intro a ha
      simp [parse_dnsaddr_txt, hs, hpre, ha]

theorem claim8_witness :
    parse_dnsaddr_txt sampleEnv [0] = .error (.invalidData "utf8") :=
  (claim8_parse_dnsaddr sampleEnv [0]).1 "utf8" rfl

/-- C9 counterexample: the claim says the source chain of a `Dial` error
with a non-empty sub-error list yields its last sub-error. For
`Dial([TooManyLookups])` the list is non-empty, yet `source()` is `none`
(because the code returns the last sub-error's own source, and
`TooManyLookups` has none), so the chain yields nothing at all. -/
theorem claim9_counterexample :
    (Error.dial [(Error.tooManyLookups : Error Unit)]).source = none := by
  simp [Error.source, lastSource]

/-- C9 (amended): for every `Dial` error with a non-empty sub-error list,
`source()` returns the source of its last sub-error — the chain continues
from the last sub-error, not with it. -/
theorem claim9_dial_source_amended {E : Type} (errs : List (Error E))
    (h : errs ≠ []) :
    (Error.dial errs).source = (errs.getLast h).source :=
  lastSource_eq errs h

theorem claim9_witness :
    (Error.dial [(Error.transport 3 : Error Nat)]).source =
      (([(Error.transport 3 : Error Nat)]).getLast (List.cons_ne_nil _ _)).source :=
  claim9_dial_source_amended [(Error.transport 3 : Error Nat)]
    (List.cons_ne_nil _ _)

/-- C10: the wrapper transport's `dial` always returns `Ok` with the
resolve-and-dial future; it never returns a synchronous `TransportError`,
so every failure is surfaced only through the future's output. -/
theorem claim10_dial_always_ok {E O : Type} (env : Env) (R : Resolver)
    (inner : Multiaddr → InnerDialOutcome E O) (addr : Multiaddr) :
    dial env R inner addr = .ok (do_dial env R inner addr) ∧
    (dial env R inner addr).isOk = true :=
  ⟨rfl, rfl⟩
